import Mathlib

/-!
Verification of the TOAST value-compression codec layer
(`src/backend/access/common/toast_compression.c` and the
`test_toast_ext` structure-layout test module).

The C file wraps three compression libraries (pglz, LZ4, Zstandard).
The libraries themselves are external collaborators, so each is modelled
as a structure of abstract functions (`PglzLib`, `LZ4Lib`, `ZstdLib`);
the wrapper functions from `toast_compression.c` are translated
line-by-line over those structures.  Library behavioural contracts
(round-trip, partial decompression) appear as explicit hypotheses of the
theorems and are discharged on concrete toy libraries in the witnesses.

Byte buffers are `List Nat`.  A varlena result is modelled as a length
field plus the bytes actually written into the palloc'd buffer
(`VarResult`), mirroring `SET_VARSIZE`: the logical value of the datum
is the first `len` bytes of the buffer.
-/

namespace ToastCompression

/-- Error outcomes of the C wrappers: `ereport(ERROR, ERRCODE_DATA_CORRUPTED ...)`,
`elog(ERROR, ...)` (hard internal error), and the `NO_COMPRESSION_SUPPORT`
macro (`ERRCODE_FEATURE_NOT_SUPPORTED`, carrying the method name). -/
inductive TCError where
  | dataCorrupted (msg : String)
  | internalError (msg : String)
  | featureNotSupported (method : String)
deriving DecidableEq, Repr

instance {ε α : Type} [DecidableEq ε] [DecidableEq α] : DecidableEq (Except ε α) :=
  fun a b =>
    match a, b with
    | .error x, .error y =>
        if h : x = y then isTrue (by rw [h]) else
          isFalse (fun c => h (by injection c))
    | .error _, .ok _ => isFalse (fun c => Except.noConfusion c)
    | .ok _, .error _ => isFalse (fun c => Except.noConfusion c)
    | .ok x, .ok y =>
        if h : x = y then isTrue (by rw [h]) else
          isFalse (fun c => h (by injection c))

/-- A compressed varlena with a `varattrib_4b.va_compressed` header:
`extsize` models `VARDATA_COMPRESSED_GET_EXTSIZE` (the raw, uncompressed
size recorded in the tcinfo word; the caller `toast_compress_datum` stores
the input's size there) and `payload` the compressed bytes following
`VARHDRSZ_COMPRESSED`. -/
structure CompressedDatum where
  extsize : Nat
  payload : List Nat
deriving DecidableEq, Repr

/-- A decompression result buffer: `buf` is what the library wrote into the
palloc'd area and `len` is what `SET_VARSIZE` recorded.  The logical datum
is `buf.take len`. -/
structure VarResult where
  len : Nat
  buf : List Nat
deriving DecidableEq, Repr

/-- Logical contents of a produced varlena: the first `len` bytes of the buffer. -/
def VarResult.value (r : VarResult) : List Nat := r.buf.take r.len

/-! ## The pglz library model (`common/pg_lzcompress.c`, external to src) -/

/-- Model of the pglz module used by the wrappers.  `min_input_size` and
`max_input_size` are the fields of `PGLZ_strategy_default` consulted at
lines 57-58.  `compress` models `pglz_compress` (`none` for a negative
return, i.e. the input could not be compressed under the strategy) and
`decompress s destlen check_complete` models `pglz_decompress` (`none`
for a negative return, otherwise the bytes written to the destination). -/
structure PglzLib where
  min_input_size : Nat
  max_input_size : Nat
  compress : List Nat → Option (List Nat)
  decompress : List Nat → Nat → Bool → Option (List Nat)

/-- `pglz_compress_datum` (toast_compression.c lines 44-81): bail out
without attempting compression when the size is outside the strategy
window, otherwise call `pglz_compress` and return `NULL` on a negative
result.  The raw size recorded in the header is set by the caller
(`toast_compress_datum`, outside src); it is included here so that the
decompression side can read it back. -/
def pglz_compress_datum (lib : PglzLib) (value : List Nat) :
    Option CompressedDatum :=
  let valsize := value.length
  if valsize < lib.min_input_size ∨ valsize > lib.max_input_size then
    none
  else
    match lib.compress value with
    | none => none
    | some out => some ⟨valsize, out⟩

/-- `pglz_decompress_datum` (lines 86-108): full decompression with
destination length `VARDATA_COMPRESSED_GET_EXTSIZE(value)` and
`check_complete = true`; `DataCorrupted` on a negative result. -/
def pglz_decompress_datum (lib : PglzLib) (value : CompressedDatum) :
    Except TCError VarResult :=
  match lib.decompress value.payload value.extsize true with
  | none => .error (.dataCorrupted "compressed pglz data is corrupt")
  | some out => .ok ⟨out.length, out⟩

/-- `pglz_decompress_datum_slice` (lines 113-136): destination length
`slicelength`, `check_complete = false`. -/
def pglz_decompress_datum_slice (lib : PglzLib) (value : CompressedDatum)
    (slicelength : Nat) : Except TCError VarResult :=
  match lib.decompress value.payload slicelength false with
  | none => .error (.dataCorrupted "compressed pglz data is corrupt")
  | some out => .ok ⟨out.length, out⟩

/-! ## The LZ4 library model (external library, USE_LZ4 build) -/

/-- Model of liblz4.  `compress_default input max_size` models
`LZ4_compress_default` (`none` for a return value `<= 0`, i.e. an error);
`decompress_safe src dstCapacity` models `LZ4_decompress_safe`;
`decompress_safe_part src targetOutputSize dstCapacity` models
`LZ4_decompress_safe_partial`.  `none` models a negative return. -/
structure LZ4Lib where
  versionNumber : Nat
  compressBound : Nat → Nat
  compress_default : List Nat → Nat → Option (List Nat)
  decompress_safe : List Nat → Nat → Option (List Nat)
  decompress_safe_part : List Nat → Nat → Nat → Option (List Nat)

/-- `lz4_compress_datum` (lines 143-181, USE_LZ4 branch): a non-positive
library return is a hard `elog(ERROR)`; a result longer than the input
(`len > valsize`) is treated as incompressible and yields `NULL`. -/
def lz4_compress_datum (lib : LZ4Lib) (value : List Nat) :
    Except TCError (Option CompressedDatum) :=
  let valsize := value.length
  let max_size := lib.compressBound valsize
  match lib.compress_default value max_size with
  | none => .error (.internalError "lz4 compression failed")
  | some out =>
      if out.length > valsize then .ok none
      else .ok (some ⟨valsize, out⟩)

/-- `lz4_decompress_datum` (lines 186-214): full decompression with
destination capacity `VARDATA_COMPRESSED_GET_EXTSIZE(value)`. -/
def lz4_decompress_datum (lib : LZ4Lib) (value : CompressedDatum) :
    Except TCError VarResult :=
  match lib.decompress_safe value.payload value.extsize with
  | none => .error (.dataCorrupted "compressed lz4 data is corrupt")
  | some out => .ok ⟨out.length, out⟩

/-- `lz4_decompress_datum_slice` (lines 219-251): before library version
1.8.3 (`LZ4_versionNumber() < 10803`) fall back to full decompression,
otherwise call `LZ4_decompress_safe_partial` with target and capacity
both equal to `slicelength`. -/
def lz4_decompress_datum_slice (lib : LZ4Lib) (value : CompressedDatum)
    (slicelength : Nat) : Except TCError VarResult :=
  if lib.versionNumber < 10803 then
    lz4_decompress_datum lib value
  else
    match lib.decompress_safe_part value.payload slicelength slicelength with
    | none => .error (.dataCorrupted "compressed lz4 data is corrupt")
    | some out => .ok ⟨out.length, out⟩

/-! ## The Zstandard library model (external library, USE_ZSTD build) -/

/-- Model of libzstd.  `compress src dstCapacity level` models
`ZSTD_compress` (`none` when `ZSTD_isError` holds of the result);
`decompress src dstCapacity` models `ZSTD_decompress`. -/
structure ZstdLib where
  compressBound : Nat → Nat
  compress : List Nat → Nat → Nat → Option (List Nat)
  decompress : List Nat → Nat → Option (List Nat)

/-- `zstd_compress_datum` (lines 266-315, USE_ZSTD branch): inputs shorter
than 32 bytes are skipped; a library error is a hard `elog(ERROR)`;
`len >= valsize` is incompressible and yields `NULL`.  The output is a
plain varlena holding just the zstd frame (no tcinfo header), so it is a
bare byte list here. -/
def zstd_compress_datum (lib : ZstdLib) (value : List Nat) :
    Except TCError (Option (List Nat)) :=
  let valsize := value.length
  if valsize < 32 then .ok none
  else
    let max_size := lib.compressBound valsize
    match lib.compress value max_size 3 with
    | none => .error (.internalError "zstd compression failed")
    | some out =>
        if out.length ≥ valsize then .ok none
        else .ok (some out)

/-- `zstd_decompress_datum` (lines 320-347): single-shot decompression into
a buffer of capacity `rawsize`; the result length is the library's
reported `decomp_size`. -/
def zstd_decompress_datum (lib : ZstdLib) (value : List Nat)
    (rawsize : Nat) : Except TCError VarResult :=
  match lib.decompress value rawsize with
  | none => .error (.dataCorrupted "compressed zstd data is corrupt")
  | some out => .ok ⟨out.length, out⟩

/-- `zstd_decompress_datum_slice` (lines 359-392): when
`slicelength >= rawsize`, short-circuit to the full decompression path;
otherwise decompress the whole frame into a `rawsize` buffer and then
`SET_VARSIZE` the result to `slicelength` — unconditionally, without
comparing the library's reported size against `slicelength`. -/
def zstd_decompress_datum_slice (lib : ZstdLib) (value : List Nat)
    (rawsize slicelength : Nat) : Except TCError VarResult :=
  if slicelength ≥ rawsize then
    zstd_decompress_datum lib value rawsize
  else
    match lib.decompress value rawsize with
    | none => .error (.dataCorrupted "compressed zstd data is corrupt")
    | some out => .ok ⟨slicelength, out⟩

/-! ## Library behavioural contracts (hypotheses of the theorems) -/

/-- pglz round-trip contract: a successful `pglz_compress` is inverted by
`pglz_decompress` with destination length equal to the raw size and
`check_complete = true`. -/
def PglzLib.RoundTrip (lib : PglzLib) : Prop :=
  ∀ B C, lib.compress B = some C →
    lib.decompress C B.length true = some B

/-- pglz partial-decompression contract: with `check_complete = false` and
destination length `k ≤ |B|`, `pglz_decompress` produces exactly the first
`k` bytes of the original input. -/
def PglzLib.SliceContract (lib : PglzLib) : Prop :=
  ∀ B C k, lib.compress B = some C → k ≤ B.length →
    lib.decompress C k false = some (B.take k)

/-- LZ4 round-trip contract for `LZ4_decompress_safe`. -/
def LZ4Lib.RoundTrip (lib : LZ4Lib) : Prop :=
  ∀ B C, lib.compress_default B (lib.compressBound B.length) = some C →
    lib.decompress_safe C B.length = some B

/-- LZ4 partial-decompression contract for `LZ4_decompress_safe_partial`
with target output size and capacity both `k ≤ |B|`. -/
def LZ4Lib.PartContract (lib : LZ4Lib) : Prop :=
  ∀ B C k, lib.compress_default B (lib.compressBound B.length) = some C →
    k ≤ B.length → lib.decompress_safe_part C k k = some (B.take k)

/-- Zstandard round-trip contract: a frame produced at level 3 decompresses
back to the input when given destination capacity equal to the raw size. -/
def ZstdLib.RoundTrip (lib : ZstdLib) : Prop :=
  ∀ B C, lib.compress B (lib.compressBound B.length) 3 = some C →
    lib.decompress C B.length = some B

/-! ## Concrete toy libraries used by witnesses and counterexamples -/

/-- A pglz model whose compression is the identity and whose decompression
returns the requested number of bytes; it satisfies both pglz contracts. -/
def identPglz (mn mx : Nat) : PglzLib :=
  { min_input_size := mn
    max_input_size := mx
    compress := fun B => some B
    decompress := fun C n _ => some (C.take n) }

/-- An LZ4 model (parameterised by the linked library version) whose
compression is the identity; it satisfies both LZ4 contracts, and its
compressed output length always equals the input length — a legal
`LZ4_compress_default` outcome, since the API only bounds the result by
`LZ4_compressBound`. -/
def identLZ4 (version : Nat) : LZ4Lib :=
  { versionNumber := version
    compressBound := fun n => n + 16
    compress_default := fun B _ => some B
    decompress_safe := fun C cap => some (C.take cap)
    decompress_safe_part := fun C k _ => some (C.take k) }

/-- A Zstandard model that knows how to compress exactly one 32-byte input
down to one byte, satisfying the zstd round-trip contract. -/
def toyZstd : ZstdLib :=
  { compressBound := fun n => n + 64
    compress := fun s _ _ => if s = List.replicate 32 7 then some [7] else none
    decompress := fun c cap =>
      if c = [7] then some ((List.replicate 32 7).take cap) else none }

/-- An LZ4 model whose compressor always reports a hard error. -/
def failLZ4 : LZ4Lib :=
  { versionNumber := 10803
    compressBound := fun n => n + 16
    compress_default := fun _ _ => none
    decompress_safe := fun _ _ => none
    decompress_safe_part := fun _ _ _ => none }

/-- A Zstandard model whose compressor always reports a hard error. -/
def failZstd : ZstdLib :=
  { compressBound := fun n => n + 64
    compress := fun _ _ _ => none
    decompress := fun _ _ => none }

/-- A Zstandard model whose decompressor reports success but writes only a
single byte, regardless of the declared capacity. -/
def shortZstd : ZstdLib :=
  { compressBound := fun n => n + 64
    compress := fun _ _ _ => none
    decompress := fun _ _ => some [1] }

/-- An LZ4 model whose compressed output is always one byte longer than the
input (the incompressible-data case). -/
def expandLZ4 : LZ4Lib :=
  { versionNumber := 10803
    compressBound := fun n => n + 16
    compress_default := fun B _ => some (B ++ [0])
    decompress_safe := fun _ _ => none
    decompress_safe_part := fun _ _ _ => none }

/-- A Zstandard model whose compressed output is always one byte longer
than the input (the incompressible-data case). -/
def expandZstd : ZstdLib :=
  { compressBound := fun n => n + 64
    compress := fun B _ _ => some (B ++ [0])
    decompress := fun _ _ => none }

/-! ## Compression-ID resolution (`toast_get_compression_id`) -/

/-- `TOAST_PGLZ_COMPRESSION_ID` (checked to be 0 by `test_toast_compression_ids`). -/
def TOAST_PGLZ_COMPRESSION_ID : Nat := 0

/-- `TOAST_LZ4_COMPRESSION_ID` (checked to be 1 by `test_toast_compression_ids`). -/
def TOAST_LZ4_COMPRESSION_ID : Nat := 1

/-- `TOAST_INVALID_COMPRESSION_ID` (checked to be 2 by `test_toast_compression_ids`). -/
def TOAST_INVALID_COMPRESSION_ID : Nat := 2

/-- `TOAST_EXTENDED_COMPRESSION_ID` (checked to be 3 by `test_toast_compression_ids`). -/
def TOAST_EXTENDED_COMPRESSION_ID : Nat := 3

/-- Modelled from the spec: `TOAST_ZSTD_COMPRESSION_ID`, defined in
`toast_compression.h` which is not under src; the spec requires only "a
reserved external id distinct from the three inline ids", so it is taken
to be 4, distinct from ids 0-3 above. -/
def TOAST_ZSTD_COMPRESSION_ID : Nat := 4

/-- `VARHDRSZ`: size of the 4-byte varlena length word. -/
def VARHDRSZ : Nat := 4

/-- The fields of `varatt_external` (the 16-byte standard external TOAST
pointer): raw size, extension info word, value id, owning toast relation id. -/
structure VarattExternal where
  va_rawsize : Nat
  va_extinfo : Nat
  va_valueid : Nat
  va_toastrelid : Nat
deriving DecidableEq, Repr

/-- Modelled from the spec: `VARATT_EXTERNAL_GET_EXTSIZE` from `varatt.h`
(not under src) — the external stored size lives in the low 30 bits of
`va_extinfo` (1073741824 = 2^30). -/
def VARATT_EXTERNAL_GET_EXTSIZE (p : VarattExternal) : Nat :=
  p.va_extinfo % 1073741824

/-- Modelled from the spec: `VARATT_EXTERNAL_GET_COMPRESS_METHOD` from
`varatt.h` (not under src) — the compression method id lives in the top
2 bits of the 32-bit `va_extinfo` word. -/
def VARATT_EXTERNAL_GET_COMPRESS_METHOD (p : VarattExternal) : Nat :=
  p.va_extinfo / 1073741824

/-- Modelled from the spec: `VARATT_EXTERNAL_IS_COMPRESSED` from `varatt.h`
(not under src) — the pointer counts as compressed when the external
stored size is strictly smaller than the raw size less the varlena
header. -/
def VARATT_EXTERNAL_IS_COMPRESSED (p : VarattExternal) : Bool :=
  VARATT_EXTERNAL_GET_EXTSIZE p < p.va_rawsize - VARHDRSZ

/-- The stored representations `toast_get_compression_id` distinguishes via
the `VARATT_IS_*` tests: an external on-disk pointer tagged
`VARTAG_ONDISK_ZSTD`, an external on-disk pointer tagged `VARTAG_ONDISK`,
an inline compressed datum (whose 32-bit tcinfo word carries the raw size
in its low 30 bits and the method id in its top 2 bits), and anything
else (inline uncompressed data). -/
inductive ToastAttr where
  | externalOndiskZstd (p : VarattExternal)
  | externalOndisk (p : VarattExternal)
  | inlineCompressed (tcinfo : Nat) (payload : List Nat)
  | plain (bytes : List Nat)
deriving DecidableEq, Repr

/-- `VARDATA_COMPRESSED_GET_COMPRESS_METHOD`: the top 2 bits of the 32-bit
tcinfo word of an inline compressed datum (1073741824 = 2^30). -/
def VARDATA_COMPRESSED_GET_COMPRESS_METHOD (tcinfo : Nat) : Nat :=
  tcinfo / 1073741824

/-- `toast_get_compression_id` (toast_compression.c lines 399-431):
check `VARATT_IS_EXTERNAL_ONDISK_ZSTD` first and return
`TOAST_ZSTD_COMPRESSION_ID` directly without consulting `va_extinfo`
bits; else, for a `VARTAG_ONDISK` pointer, consult the compressed flag
and the method bit field; else, for an inline compressed datum, the
tcinfo method bits; else `TOAST_INVALID_COMPRESSION_ID`. -/
def toast_get_compression_id (attr : ToastAttr) : Nat :=
  match attr with
  | .externalOndiskZstd _ => TOAST_ZSTD_COMPRESSION_ID
  | .externalOndisk p =>
      if VARATT_EXTERNAL_IS_COMPRESSED p then
        VARATT_EXTERNAL_GET_COMPRESS_METHOD p
      else
        TOAST_INVALID_COMPRESSION_ID
  | .inlineCompressed tcinfo _ => VARDATA_COMPRESSED_GET_COMPRESS_METHOD tcinfo
  | .plain _ => TOAST_INVALID_COMPRESSION_ID

/-! ## Name-to-method resolution (`CompressionNameToMethod`) -/

/-- The compression method characters of `toast_compression.h`:
`TOAST_PGLZ_COMPRESSION`, `TOAST_LZ4_COMPRESSION`,
`TOAST_ZSTD_COMPRESSION` and the `InvalidCompressionMethod` sentinel
returned for names not found among the built-in methods. -/
inductive CompressionMethod where
  | pglz
  | lz4
  | zstd
  | invalid
deriving DecidableEq, Repr

/-- `CompressionNameToMethod` (lines 439-460), with the `USE_LZ4` and
`USE_ZSTD` compile-time flags as explicit booleans: a registered name
whose library is compiled out hits `NO_COMPRESSION_SUPPORT` (a
`FeatureNotSupported` error carrying the method name); a name that is
not one of the built-in methods returns the `InvalidCompressionMethod`
sentinel (the spec's `NotFound` outcome). -/
def CompressionNameToMethod (useLZ4 useZSTD : Bool) (compression : String) :
    Except TCError CompressionMethod :=
  if compression = "pglz" then .ok .pglz
  else if compression = "lz4" then
    if useLZ4 then .ok .lz4 else .error (.featureNotSupported "lz4")
  else if compression = "zstd" then
    if useZSTD then .ok .zstd else .error (.featureNotSupported "zstd")
  else .ok .invalid

/-! ## Structure layout (`test_toast_ext.c`) -/

/-- Modelled from the spec: the field layout of the standard external
pointer `varatt_external` from `varatt.h` (not under src) — four
unsigned 32-bit fields, as asserted by `test_toast_structure_sizes`.
Each entry is a field name with its width in bytes. -/
def varatt_external_layout : List (String × Nat) :=
  [("va_rawsize", 4), ("va_extinfo", 4), ("va_valueid", 4), ("va_toastrelid", 4)]

/-- Modelled from the spec: the field layout of the extended external
pointer `varatt_external_extended` from `varatt.h` (not under src) —
raw size (4 bytes), ext-info (4), flags (1), the 3-byte `va_data`
reserved region beginning at the flags byte's successor, value id (4)
and owning toast relation id (4), as asserted by
`test_toast_structure_sizes`. -/
def varatt_external_extended_layout : List (String × Nat) :=
  [("va_rawsize", 4), ("va_extinfo", 4), ("va_flags", 1), ("va_data", 3),
   ("va_valueid", 4), ("va_toastrelid", 4)]

/-- Total size in bytes of a packed field layout. -/
def layoutSize (fields : List (String × Nat)) : Nat :=
  (fields.map Prod.snd).sum

/-- Byte offset of a named field in a packed field layout (0 when absent,
matching `offsetof` only for present fields). -/
def layoutOffset (fields : List (String × Nat)) (name : String) : Nat :=
  match fields with
  | [] => 0
  | (n, w) :: rest =>
      if n = name then 0 else w + layoutOffset rest name

/-! ## Contract lemmas for the toy libraries -/

theorem identPglz_roundTrip (mn mx : Nat) : (identPglz mn mx).RoundTrip := by
  intro B C h
  simp only [identPglz, Option.some.injEq] at h
  subst h
  simp [identPglz]

theorem identPglz_sliceContract (mn mx : Nat) : (identPglz mn mx).SliceContract := by
  intro B C k h _
  simp only [identPglz, Option.some.injEq] at h
  subst h
  simp [identPglz]

theorem identLZ4_roundTrip (v : Nat) : (identLZ4 v).RoundTrip := by
  intro B C h
  simp only [identLZ4, Option.some.injEq] at h
  subst h
  simp [identLZ4]

theorem identLZ4_partContract (v : Nat) : (identLZ4 v).PartContract := by
  intro B C k h _
  simp only [identLZ4, Option.some.injEq] at h
  subst h
  simp [identLZ4]

theorem toyZstd_roundTrip : toyZstd.RoundTrip := by
  intro B C h
  simp only [toyZstd] at h ⊢
  split at h
  · next hB =>
      simp only [Option.some.injEq] at h
      subst h
      subst hB
      simp
  · exact Option.noConfusion h

/-! ## Claim theorems -/

/-- C9: the standard external pointer structure is exactly 16 bytes and the
extended external pointer structure is exactly 20 bytes, with the extended
structure's fields at byte offsets 0 (raw size), 4 (ext-info), 8 (flags),
9 (va_data boundary), 12 (value id) and 16 (owning-relation id), exactly
as asserted by `test_toast_structure_sizes`. -/
theorem C9_structure_layout :
    layoutSize varatt_external_layout = 16 ∧
    layoutSize varatt_external_extended_layout = 20 ∧
    layoutOffset varatt_external_extended_layout "va_rawsize" = 0 ∧
    layoutOffset varatt_external_extended_layout "va_extinfo" = 4 ∧
    layoutOffset varatt_external_extended_layout "va_flags" = 8 ∧
    layoutOffset varatt_external_extended_layout "va_data" = 9 ∧
    layoutOffset varatt_external_extended_layout "va_valueid" = 12 ∧
    layoutOffset varatt_external_extended_layout "va_toastrelid" = 16 := by
  decide

/-- C3: `toast_get_compression_id` checks the `VARTAG_ONDISK_ZSTD`
discriminant first and short-circuits: a zstd-tagged external pointer
resolves to `TOAST_ZSTD_COMPRESSION_ID` regardless of its `va_extinfo`
flag bits; only otherwise are the `VARTAG_ONDISK` pointer's compressed
flag and then the inline compressed header consulted; a representation
matching none of these resolves to `TOAST_INVALID_COMPRESSION_ID`.
Moreover (last conjunct) the generic 2-bit method field of a 32-bit
ext-info word can never itself produce the zstd id. -/
theorem C3_resolver_precedence :
    (∀ p : VarattExternal,
        toast_get_compression_id (.externalOndiskZstd p) =
          TOAST_ZSTD_COMPRESSION_ID) ∧
    (∀ p : VarattExternal, VARATT_EXTERNAL_IS_COMPRESSED p = true →
        toast_get_compression_id (.externalOndisk p) =
          VARATT_EXTERNAL_GET_COMPRESS_METHOD p) ∧
    (∀ p : VarattExternal, VARATT_EXTERNAL_IS_COMPRESSED p = false →
        toast_get_compression_id (.externalOndisk p) =
          TOAST_INVALID_COMPRESSION_ID) ∧
    (∀ (tcinfo : Nat) (payload : List Nat),
        toast_get_compression_id (.inlineCompressed tcinfo payload) =
          VARDATA_COMPRESSED_GET_COMPRESS_METHOD tcinfo) ∧
    (∀ bytes : List Nat,
        toast_get_compression_id (.plain bytes) =
          TOAST_INVALID_COMPRESSION_ID) ∧
    (∀ p : VarattExternal, p.va_extinfo < 4294967296 →
        VARATT_EXTERNAL_GET_COMPRESS_METHOD p ≠ TOAST_ZSTD_COMPRESSION_ID) := by
  refine ⟨fun p => rfl, fun p h => ?_, fun p h => ?_, fun t pl => rfl,
    fun b => rfl, fun p h => ?_⟩
  · simp [toast_get_compression_id, h]
  · simp [toast_get_compression_id, h]
  · intro hc
    unfold VARATT_EXTERNAL_GET_COMPRESS_METHOD TOAST_ZSTD_COMPRESSION_ID at hc
    omega

/-- Witness for C3 at concrete pointers: `⟨100, 50, 1, 2⟩` is compressed
(ext size 50 < 100 - 4) and `⟨100, 200, 1, 2⟩` is not. -/
theorem C3_resolver_precedence_witness :
    toast_get_compression_id (.externalOndiskZstd ⟨100, 50, 1, 2⟩) =
      TOAST_ZSTD_COMPRESSION_ID ∧
    toast_get_compression_id (.externalOndisk ⟨100, 50, 1, 2⟩) =
      VARATT_EXTERNAL_GET_COMPRESS_METHOD ⟨100, 50, 1, 2⟩ ∧
    toast_get_compression_id (.externalOndisk ⟨100, 200, 1, 2⟩) =
      TOAST_INVALID_COMPRESSION_ID ∧
    VARATT_EXTERNAL_GET_COMPRESS_METHOD ⟨100, 50, 1, 2⟩ ≠
      TOAST_ZSTD_COMPRESSION_ID :=
  ⟨C3_resolver_precedence.1 ⟨100, 50, 1, 2⟩,
   C3_resolver_precedence.2.1 ⟨100, 50, 1, 2⟩ (by decide),
   C3_resolver_precedence.2.2.1 ⟨100, 200, 1, 2⟩ (by decide),
   C3_resolver_precedence.2.2.2.2.2 ⟨100, 50, 1, 2⟩ (by decide)⟩

/-- C8: `CompressionNameToMethod` gives two distinct failure outcomes — a
registered name whose library is compiled out fails with
`FeatureNotSupported` carrying that method name, while a name that is not
a built-in method yields the `InvalidCompressionMethod` sentinel (the
spec's `NotFound` outcome), and the two outcomes are never equal. -/
theorem C8_name_to_method :
    (∀ useZSTD : Bool, CompressionNameToMethod false useZSTD "lz4" =
        .error (.featureNotSupported "lz4")) ∧
    (∀ useLZ4 : Bool, CompressionNameToMethod useLZ4 false "zstd" =
        .error (.featureNotSupported "zstd")) ∧
    (∀ (useLZ4 useZSTD : Bool) (name : String),
        name ≠ "pglz" → name ≠ "lz4" → name ≠ "zstd" →
        CompressionNameToMethod useLZ4 useZSTD name = .ok .invalid) ∧
    (∀ name : String,
        (Except.error (TCError.featureNotSupported name) :
          Except TCError CompressionMethod) ≠ .ok .invalid) := by
  refine ⟨fun z => by cases z <;> decide, fun l => by cases l <;> decide,
    fun l z name h1 h2 h3 => ?_, fun name h => Except.noConfusion h⟩
  simp [CompressionNameToMethod, h1, h2, h3]

/-- Witness for C8: requesting `lz4` on a build without liblz4 names the
method in the error, and the unknown name `gzip` yields the sentinel. -/
theorem C8_name_to_method_witness :
    CompressionNameToMethod false true "lz4" =
      .error (.featureNotSupported "lz4") ∧
    CompressionNameToMethod true true "gzip" = .ok .invalid ∧
    (Except.error (TCError.featureNotSupported "lz4") :
      Except TCError CompressionMethod) ≠ .ok .invalid :=
  ⟨C8_name_to_method.1 true,
   C8_name_to_method.2.2.1 true true "gzip" (by decide) (by decide) (by decide),
   C8_name_to_method.2.2.2 "lz4"⟩

/-- C10: on the true-slice path (`slicelength < rawsize`), whenever the
zstd library reports no error, `zstd_decompress_datum_slice` records
exactly `slicelength` as the result's logical length — unconditionally,
with no comparison of the library's actual output against `slicelength`
or `rawsize` (the theorem holds for every library output `out`). -/
theorem C10_zstd_slice_sets_len :
    ∀ (lib : ZstdLib) (value : List Nat) (rawsize slicelength : Nat)
      (out : List Nat),
      slicelength < rawsize →
      lib.decompress value rawsize = some out →
      zstd_decompress_datum_slice lib value rawsize slicelength =
        .ok ⟨slicelength, out⟩ := by
  intro lib value rawsize k out hk hdec
  unfold zstd_decompress_datum_slice
  rw [if_neg (by omega), hdec]

/-- Witness for C10: a library that writes a single byte while claiming
success still yields a result whose recorded length is the requested 3. -/
theorem C10_zstd_slice_sets_len_witness :
    zstd_decompress_datum_slice shortZstd [0] 5 3 = .ok ⟨3, [1]⟩ ∧
    (3 : Nat) ≠ ([1] : List Nat).length ∧ (3 : Nat) ≠ 5 :=
  ⟨C10_zstd_slice_sets_len shortZstd [0] 5 3 [1] (by decide) rfl,
   by decide, by decide⟩

/-- C1: for every available method whose library satisfies its round-trip
contract, whenever the compress wrapper returns a compressed value,
decompressing it (with the recorded raw size) yields exactly the original
input. -/
theorem C1_roundtrip :
    (∀ lib : PglzLib, lib.RoundTrip →
      ∀ (B : List Nat) (cd : CompressedDatum),
        pglz_compress_datum lib B = some cd →
        ∃ r, pglz_decompress_datum lib cd = .ok r ∧ r.value = B) ∧
    (∀ lib : LZ4Lib, lib.RoundTrip →
      ∀ (B : List Nat) (cd : CompressedDatum),
        lz4_compress_datum lib B = .ok (some cd) →
        ∃ r, lz4_decompress_datum lib cd = .ok r ∧ r.value = B) ∧
    (∀ lib : ZstdLib, lib.RoundTrip →
      ∀ (B C : List Nat),
        zstd_compress_datum lib B = .ok (some C) →
        ∃ r, zstd_decompress_datum lib C B.length = .ok r ∧ r.value = B) := by
  refine ⟨?_, ?_, ?_⟩
  · intro lib hrt B cd hc
    simp only [pglz_compress_datum] at hc
    split at hc
    · exact Option.noConfusion hc
    · cases hcmp : lib.compress B with
      | none => simp only [hcmp] at hc; exact Option.noConfusion hc
      | some out =>
          simp only [hcmp, Option.some.injEq] at hc
          subst hc
          refine ⟨⟨B.length, B⟩, ?_, by simp [VarResult.value]⟩
          simp only [pglz_decompress_datum]
          rw [hrt B out hcmp]
  · intro lib hrt B cd hc
    simp only [lz4_compress_datum] at hc
    cases hcmp : lib.compress_default B (lib.compressBound B.length) with
    | none => simp only [hcmp] at hc; exact Except.noConfusion hc
    | some out =>
        simp only [hcmp] at hc
        split at hc
        · exact Option.noConfusion (Except.ok.inj hc)
        · simp only [Except.ok.injEq, Option.some.injEq] at hc
          subst hc
          refine ⟨⟨B.length, B⟩, ?_, by simp [VarResult.value]⟩
          simp only [lz4_decompress_datum]
          rw [hrt B out hcmp]
  · intro lib hrt B C hc
    simp only [zstd_compress_datum] at hc
    split at hc
    · exact Option.noConfusion (Except.ok.inj hc)
    · cases hcmp : lib.compress B (lib.compressBound B.length) 3 with
      | none => simp only [hcmp] at hc; exact Except.noConfusion hc
      | some out =>
          simp only [hcmp] at hc
          split at hc
          · exact Option.noConfusion (Except.ok.inj hc)
          · simp only [Except.ok.injEq, Option.some.injEq] at hc
            subst hc
            refine ⟨⟨B.length, B⟩, ?_, by simp [VarResult.value]⟩
            simp only [zstd_decompress_datum]
            rw [hrt B out hcmp]

/-- Witness for C1: round trips at concrete libraries and inputs — the
identity pglz and LZ4 models on `[1, 2, 3]`, and the toy zstd model on the
32-byte buffer it knows how to compress. -/
theorem C1_roundtrip_witness :
    (∃ r, pglz_decompress_datum (identPglz 1 1000000) ⟨3, [1, 2, 3]⟩ = .ok r ∧
      r.value = [1, 2, 3]) ∧
    (∃ r, lz4_decompress_datum (identLZ4 10803) ⟨3, [1, 2, 3]⟩ = .ok r ∧
      r.value = [1, 2, 3]) ∧
    (∃ r, zstd_decompress_datum toyZstd [7] (List.replicate 32 7).length = .ok r ∧
      r.value = List.replicate 32 7) :=
  ⟨C1_roundtrip.1 (identPglz 1 1000000) (identPglz_roundTrip 1 1000000)
      [1, 2, 3] ⟨3, [1, 2, 3]⟩ (by decide),
   C1_roundtrip.2.1 (identLZ4 10803) (identLZ4_roundTrip 10803)
      [1, 2, 3] ⟨3, [1, 2, 3]⟩ (by decide),
   C1_roundtrip.2.2 toyZstd toyZstd_roundTrip (List.replicate 32 7) [7]
      (by decide)⟩

/-- C5: when the underlying algorithm reports an error — an outcome the
LZ4 and zstd interfaces distinguish from mere incompressibility — the
compress wrapper escalates a hard internal error (`elog(ERROR)`) instead
of returning `NULL`.  (The pglz interface has no error outcome distinct
from incompressibility: its only failure signal, a negative return, means
the input could not be compressed under the strategy, and is handled by
returning `NULL`.) -/
theorem C5_hard_error_on_library_failure :
    (∀ (lib : LZ4Lib) (B : List Nat),
        lib.compress_default B (lib.compressBound B.length) = none →
        lz4_compress_datum lib B =
          .error (.internalError "lz4 compression failed")) ∧
    (∀ (lib : ZstdLib) (B : List Nat), 32 ≤ B.length →
        lib.compress B (lib.compressBound B.length) 3 = none →
        zstd_compress_datum lib B =
          .error (.internalError "zstd compression failed")) := by
  refine ⟨?_, ?_⟩
  · intro lib B h
    simp only [lz4_compress_datum]
    rw [h]
  · intro lib B hlen h
    simp only [zstd_compress_datum]
    rw [if_neg (by omega), h]

/-- Witness for C5: libraries whose compressors always fail produce the
hard error, not `.ok none`, at concrete inputs. -/
theorem C5_hard_error_witness :
    lz4_compress_datum failLZ4 [1, 2, 3] =
      .error (.internalError "lz4 compression failed") ∧
    zstd_compress_datum failZstd (List.replicate 32 0) =
      .error (.internalError "zstd compression failed") :=
  ⟨C5_hard_error_on_library_failure.1 failLZ4 [1, 2, 3] rfl,
   C5_hard_error_on_library_failure.2 failZstd (List.replicate 32 0)
      (by decide) rfl⟩

/-- C2 counterexample: the claim "decompress_slice(compress(B), k) == B[0:k]
for every available method and every `0 <= k <= len(B)`" fails for LZ4
when the linked library predates 1.8.3.  The identity LZ4 model at
version 10802 satisfies both LZ4 behavioural contracts, and the slice
length `k = 1` is within range for `B = [10, 20, 30]`, yet slicing the
compressed value to one byte returns the full three-byte value, so no
result of the slice call has logical value `B[0:1] = [10]`. -/
theorem C2_counterexample :
    (identLZ4 10802).RoundTrip ∧
    (identLZ4 10802).PartContract ∧
    1 ≤ ([10, 20, 30] : List Nat).length ∧
    lz4_compress_datum (identLZ4 10802) [10, 20, 30] =
      .ok (some ⟨3, [10, 20, 30]⟩) ∧
    lz4_decompress_datum_slice (identLZ4 10802) ⟨3, [10, 20, 30]⟩ 1 =
      .ok ⟨3, [10, 20, 30]⟩ ∧
    VarResult.value ⟨3, [10, 20, 30]⟩ ≠ List.take 1 [10, 20, 30] ∧
    ¬ (∃ r, lz4_decompress_datum_slice (identLZ4 10802) ⟨3, [10, 20, 30]⟩ 1 =
        .ok r ∧ r.value = List.take 1 [10, 20, 30]) := by
  refine ⟨identLZ4_roundTrip 10802, identLZ4_partContract 10802,
    by decide, by decide, by decide, by decide, ?_⟩
  rintro ⟨r, h1, h2⟩
  have hs : lz4_decompress_datum_slice (identLZ4 10802) ⟨3, [10, 20, 30]⟩ 1 =
      .ok ⟨3, [10, 20, 30]⟩ := by decide
  rw [hs] at h1
  cases Except.ok.inj h1
  exact absurd h2 (by decide)

/-- C2 as amended: slice decompression returns exactly the first `k` bytes
of the original input for pglz, for zstd, and for LZ4 when the linked
library is at least 1.8.3; for an older LZ4 the slice call falls back to
full decompression and returns the whole original value instead. -/
theorem C2_slice_amended :
    (∀ lib : PglzLib, lib.SliceContract →
      ∀ (B : List Nat) (cd : CompressedDatum) (k : Nat),
        pglz_compress_datum lib B = some cd → k ≤ B.length →
        ∃ r, pglz_decompress_datum_slice lib cd k = .ok r ∧
          r.value = B.take k) ∧
    (∀ lib : LZ4Lib, lib.PartContract → 10803 ≤ lib.versionNumber →
      ∀ (B : List Nat) (cd : CompressedDatum) (k : Nat),
        lz4_compress_datum lib B = .ok (some cd) → k ≤ B.length →
        ∃ r, lz4_decompress_datum_slice lib cd k = .ok r ∧
          r.value = B.take k) ∧
    (∀ lib : LZ4Lib, lib.RoundTrip → lib.versionNumber < 10803 →
      ∀ (B : List Nat) (cd : CompressedDatum) (k : Nat),
        lz4_compress_datum lib B = .ok (some cd) →
        ∃ r, lz4_decompress_datum_slice lib cd k = .ok r ∧ r.value = B) ∧
    (∀ lib : ZstdLib, lib.RoundTrip →
      ∀ (B C : List Nat) (k : Nat),
        zstd_compress_datum lib B = .ok (some C) → k ≤ B.length →
        ∃ r, zstd_decompress_datum_slice lib C B.length k = .ok r ∧
          r.value = B.take k) := by
  refine ⟨?_, ?_, ?_, ?_⟩
  · intro lib hsc B cd k hc hk
    simp only [pglz_compress_datum] at hc
    split at hc
    · exact Option.noConfusion hc
    · cases hcmp : lib.compress B with
      | none => simp only [hcmp] at hc; exact Option.noConfusion hc
      | some out =>
          simp only [hcmp, Option.some.injEq] at hc
          subst hc
          refine ⟨⟨(B.take k).length, B.take k⟩, ?_, by simp [VarResult.value]⟩
          simp only [pglz_decompress_datum_slice]
          rw [hsc B out k hcmp hk]
  · intro lib hpc hv B cd k hc hk
    simp only [lz4_compress_datum] at hc
    cases hcmp : lib.compress_default B (lib.compressBound B.length) with
    | none => simp only [hcmp] at hc; exact Except.noConfusion hc
    | some out =>
        simp only [hcmp] at hc
        split at hc
        · exact Option.noConfusion (Except.ok.inj hc)
        · simp only [Except.ok.injEq, Option.some.injEq] at hc
          subst hc
          refine ⟨⟨(B.take k).length, B.take k⟩, ?_, by simp [VarResult.value]⟩
          simp only [lz4_decompress_datum_slice]
          rw [if_neg (by omega)]
          rw [hpc B out k hcmp hk]
  · intro lib hrt hv B cd k hc
    simp only [lz4_compress_datum] at hc
    cases hcmp : lib.compress_default B (lib.compressBound B.length) with
    | none => simp only [hcmp] at hc; exact Except.noConfusion hc
    | some out =>
        simp only [hcmp] at hc
        split at hc
        · exact Option.noConfusion (Except.ok.inj hc)
        · simp only [Except.ok.injEq, Option.some.injEq] at hc
          subst hc
          refine ⟨⟨B.length, B⟩, ?_, by simp [VarResult.value]⟩
          simp only [lz4_decompress_datum_slice]
          rw [if_pos hv]
          simp only [lz4_decompress_datum]
          rw [hrt B out hcmp]
  · intro lib hrt B C k hc hk
    simp only [zstd_compress_datum] at hc
    split at hc
    · exact Option.noConfusion (Except.ok.inj hc)
    · cases hcmp : lib.compress B (lib.compressBound B.length) 3 with
      | none => simp only [hcmp] at hc; exact Except.noConfusion hc
      | some out =>
          simp only [hcmp] at hc
          split at hc
          · exact Option.noConfusion (Except.ok.inj hc)
          · simp only [Except.ok.injEq, Option.some.injEq] at hc
            subst hc
            by_cases hge : B.length ≤ k
            · have hkeq : k = B.length := Nat.le_antisymm hk hge
              subst hkeq
              refine ⟨⟨B.length, B⟩, ?_, by simp [VarResult.value]⟩
              simp only [zstd_decompress_datum_slice]
              rw [if_pos (Nat.le_refl _)]
              simp only [zstd_decompress_datum]
              rw [hrt B out hcmp]
            · refine ⟨⟨k, B⟩, ?_, by simp [VarResult.value]⟩
              simp only [zstd_decompress_datum_slice]
              rw [if_neg (by omega)]
              rw [hrt B out hcmp]

/-- Witness for the amended C2: concrete 2-byte slices for each method,
plus the old-LZ4 fallback returning the full value. -/
theorem C2_slice_amended_witness :
    (∃ r, pglz_decompress_datum_slice (identPglz 1 1000000) ⟨4, [1, 2, 3, 4]⟩ 2 =
        .ok r ∧ r.value = [1, 2]) ∧
    (∃ r, lz4_decompress_datum_slice (identLZ4 10803) ⟨4, [1, 2, 3, 4]⟩ 2 =
        .ok r ∧ r.value = [1, 2]) ∧
    (∃ r, lz4_decompress_datum_slice (identLZ4 10802) ⟨4, [1, 2, 3, 4]⟩ 2 =
        .ok r ∧ r.value = [1, 2, 3, 4]) ∧
    (∃ r, zstd_decompress_datum_slice toyZstd [7] (List.replicate 32 7).length 2 =
        .ok r ∧ r.value = (List.replicate 32 7).take 2) :=
  ⟨C2_slice_amended.1 (identPglz 1 1000000) (identPglz_sliceContract 1 1000000)
      [1, 2, 3, 4] ⟨4, [1, 2, 3, 4]⟩ 2 (by decide) (by decide),
   C2_slice_amended.2.1 (identLZ4 10803) (identLZ4_partContract 10803)
      (by decide) [1, 2, 3, 4] ⟨4, [1, 2, 3, 4]⟩ 2 (by decide) (by decide),
   C2_slice_amended.2.2.1 (identLZ4 10802) (identLZ4_roundTrip 10802)
      (by decide) [1, 2, 3, 4] ⟨4, [1, 2, 3, 4]⟩ 2 (by decide),
   C2_slice_amended.2.2.2 toyZstd toyZstd_roundTrip (List.replicate 32 7) [7] 2
      (by decide) (by decide)⟩

/-- C4 counterexample: the claim "the compressed payload is strictly
smaller than the raw input whenever compress returns a value" fails for
LZ4: the guard at line 171 is `len > valsize`, so a library output whose
length exactly equals the input length (a legal `LZ4_compress_default`
outcome, bounded only by `LZ4_compressBound`) is stored compressed. -/
theorem C4_counterexample :
    ([1, 2, 3, 4] : List Nat).length ≤ (identLZ4 10803).compressBound 4 ∧
    lz4_compress_datum (identLZ4 10803) [1, 2, 3, 4] =
      .ok (some ⟨4, [1, 2, 3, 4]⟩) ∧
    ¬ (⟨4, [1, 2, 3, 4]⟩ : CompressedDatum).payload.length <
        ([1, 2, 3, 4] : List Nat).length := by
  refine ⟨by decide, by decide, by decide⟩

/-- C4 as amended: LZ4 stores a compressed value only when the library
output is no longer than the input (`len > valsize` is rejected, equality
is allowed), while zstd enforces the strict inequality (`len >= valsize`
is rejected); in both cases an output failing the guard yields `NULL` so
the caller stores the value uncompressed. -/
theorem C4_amended :
    (∀ (lib : LZ4Lib) (B : List Nat) (cd : CompressedDatum),
        lz4_compress_datum lib B = .ok (some cd) →
        cd.payload.length ≤ B.length) ∧
    (∀ (lib : LZ4Lib) (B out : List Nat),
        lib.compress_default B (lib.compressBound B.length) = some out →
        B.length < out.length → lz4_compress_datum lib B = .ok none) ∧
    (∀ (lib : ZstdLib) (B C : List Nat),
        zstd_compress_datum lib B = .ok (some C) → C.length < B.length) ∧
    (∀ (lib : ZstdLib) (B out : List Nat), 32 ≤ B.length →
        lib.compress B (lib.compressBound B.length) 3 = some out →
        B.length ≤ out.length → zstd_compress_datum lib B = .ok none) := by
  refine ⟨?_, ?_, ?_, ?_⟩
  · intro lib B cd hc
    simp only [lz4_compress_datum] at hc
    cases hcmp : lib.compress_default B (lib.compressBound B.length) with
    | none => simp only [hcmp] at hc; exact Except.noConfusion hc
    | some out =>
        simp only [hcmp] at hc
        split at hc
        · exact Option.noConfusion (Except.ok.inj hc)
        · next hgt =>
            simp only [Except.ok.injEq, Option.some.injEq] at hc
            subst hc
            simpa using Nat.not_lt.mp hgt
  · intro lib B out hcmp hlt
    simp only [lz4_compress_datum, hcmp]
    rw [if_pos hlt]
  · intro lib B C hc
    simp only [zstd_compress_datum] at hc
    split at hc
    · exact Option.noConfusion (Except.ok.inj hc)
    · cases hcmp : lib.compress B (lib.compressBound B.length) 3 with
      | none => simp only [hcmp] at hc; exact Except.noConfusion hc
      | some out =>
          simp only [hcmp] at hc
          split at hc
          · exact Option.noConfusion (Except.ok.inj hc)
          · next hge =>
              simp only [Except.ok.injEq, Option.some.injEq] at hc
              subst hc
              exact Nat.not_le.mp hge
  · intro lib B out hlen hcmp hge
    simp only [zstd_compress_datum]
    rw [if_neg (by omega)]
    simp only [hcmp]
    rw [if_pos hge]

/-- Witness for the amended C4: LZ4 keeps an equal-length output and
rejects a longer one; zstd compresses strictly and rejects equality. -/
theorem C4_amended_witness :
    (⟨2, [1, 2]⟩ : CompressedDatum).payload.length ≤
      ([1, 2] : List Nat).length ∧
    lz4_compress_datum expandLZ4 [5] = .ok none ∧
    ([7] : List Nat).length < (List.replicate 32 7).length ∧
    zstd_compress_datum expandZstd (List.replicate 32 0) = .ok none :=
  ⟨C4_amended.1 (identLZ4 10803) [1, 2] ⟨2, [1, 2]⟩ (by decide),
   C4_amended.2.1 expandLZ4 [5] [5, 0] rfl (by decide),
   C4_amended.2.2.1 toyZstd (List.replicate 32 7) [7] (by decide),
   C4_amended.2.2.2 expandZstd (List.replicate 32 0)
      (List.replicate 32 0 ++ [0]) (by decide) rfl (by decide)⟩

/-- C6 counterexample: the fallback path (library before 1.8.3) and the
partial-API path are not observably equivalent: on the same compressed
value and slice length 2, the fallback returns the full 4-byte value
while the partial path returns the 2-byte slice — the fallback does not
truncate to the needed logical size. -/
theorem C6_counterexample :
    lz4_decompress_datum_slice (identLZ4 10802) ⟨4, [5, 6, 7, 8]⟩ 2 =
      .ok ⟨4, [5, 6, 7, 8]⟩ ∧
    lz4_decompress_datum_slice (identLZ4 10803) ⟨4, [5, 6, 7, 8]⟩ 2 =
      .ok ⟨2, [5, 6]⟩ ∧
    (VarResult.value ⟨4, [5, 6, 7, 8]⟩).length ≠ 2 ∧
    lz4_decompress_datum_slice (identLZ4 10802) ⟨4, [5, 6, 7, 8]⟩ 2 ≠
      lz4_decompress_datum_slice (identLZ4 10803) ⟨4, [5, 6, 7, 8]⟩ 2 := by
  refine ⟨by decide, by decide, by decide, by decide⟩

/-- C6 as amended: before library 1.8.3, `lz4_decompress_datum_slice`
falls back to full decompression and returns the entire original value —
not truncated to the slice length; the two paths agree on the first
`slicelength` bytes (so they are equivalent only after the caller
extracts the prefix), but their return values differ in length whenever
the slice is proper. -/
theorem C6_amended :
    (∀ (lib : LZ4Lib) (cd : CompressedDatum) (k : Nat),
        lib.versionNumber < 10803 →
        lz4_decompress_datum_slice lib cd k = lz4_decompress_datum lib cd) ∧
    (∀ lib : LZ4Lib, lib.RoundTrip → lib.versionNumber < 10803 →
      ∀ (B : List Nat) (cd : CompressedDatum) (k : Nat),
        lz4_compress_datum lib B = .ok (some cd) →
        ∃ r, lz4_decompress_datum_slice lib cd k = .ok r ∧
          r.value = B ∧ r.value.take k = B.take k) ∧
    (∀ lib : LZ4Lib, lib.PartContract → 10803 ≤ lib.versionNumber →
      ∀ (B : List Nat) (cd : CompressedDatum) (k : Nat),
        lz4_compress_datum lib B = .ok (some cd) → k ≤ B.length →
        ∃ r, lz4_decompress_datum_slice lib cd k = .ok r ∧
          r.value = B.take k ∧ r.value.take k = B.take k) := by
  refine ⟨?_, ?_, ?_⟩
  · intro lib cd k hv
    simp only [lz4_decompress_datum_slice]
    rw [if_pos hv]
  · intro lib hrt hv B cd k hc
    simp only [lz4_compress_datum] at hc
    cases hcmp : lib.compress_default B (lib.compressBound B.length) with
    | none => simp only [hcmp] at hc; exact Except.noConfusion hc
    | some out =>
        simp only [hcmp] at hc
        split at hc
        · exact Option.noConfusion (Except.ok.inj hc)
        · simp only [Except.ok.injEq, Option.some.injEq] at hc
          subst hc
          refine ⟨⟨B.length, B⟩, ?_, by simp [VarResult.value], by simp [VarResult.value]⟩
          simp only [lz4_decompress_datum_slice]
          rw [if_pos hv]
          simp only [lz4_decompress_datum]
          rw [hrt B out hcmp]
  · intro lib hpc hv B cd k hc hk
    simp only [lz4_compress_datum] at hc
    cases hcmp : lib.compress_default B (lib.compressBound B.length) with
    | none => simp only [hcmp] at hc; exact Except.noConfusion hc
    | some out =>
        simp only [hcmp] at hc
        split at hc
        · exact Option.noConfusion (Except.ok.inj hc)
        · simp only [Except.ok.injEq, Option.some.injEq] at hc
          subst hc
          refine ⟨⟨(B.take k).length, B.take k⟩, ?_,
            by simp [VarResult.value], by simp [VarResult.value, List.take_take]⟩
          simp only [lz4_decompress_datum_slice]
          rw [if_neg (by omega)]
          rw [hpc B out k hcmp hk]

/-- Witness for the amended C6: the dispatch equality at version 10700,
the old-path full value, and the new-path slice, on concrete data. -/
theorem C6_amended_witness :
    lz4_decompress_datum_slice (identLZ4 10700) ⟨2, [1, 2]⟩ 1 =
      lz4_decompress_datum (identLZ4 10700) ⟨2, [1, 2]⟩ ∧
    (∃ r, lz4_decompress_datum_slice (identLZ4 10802) ⟨3, [1, 2, 3]⟩ 2 =
        .ok r ∧ r.value = [1, 2, 3] ∧ r.value.take 2 = List.take 2 [1, 2, 3]) ∧
    (∃ r, lz4_decompress_datum_slice (identLZ4 10803) ⟨3, [1, 2, 3]⟩ 2 =
        .ok r ∧ r.value = List.take 2 [1, 2, 3] ∧
        r.value.take 2 = List.take 2 [1, 2, 3]) :=
  ⟨C6_amended.1 (identLZ4 10700) ⟨2, [1, 2]⟩ 1 (by decide),
   C6_amended.2.1 (identLZ4 10802) (identLZ4_roundTrip 10802) (by decide)
      [1, 2, 3] ⟨3, [1, 2, 3]⟩ 2 (by decide),
   C6_amended.2.2 (identLZ4 10803) (identLZ4_partContract 10803) (by decide)
      [1, 2, 3] ⟨3, [1, 2, 3]⟩ 2 (by decide) (by decide)⟩

/-- C7 counterexample: the claim says the window is half-open, `[min, max)`,
so an input of length exactly `max_input_size` should be rejected without
attempting compression; but the guard at lines 57-58 is
`valsize < min || valsize > max`, so a 5-byte input with `max = 5` is
compressed (the library is invoked and its result returned). -/
theorem C7_counterexample :
    (([9, 9, 9, 9, 9] : List Nat).length < 1 ∨
      5 ≤ ([9, 9, 9, 9, 9] : List Nat).length) ∧
    pglz_compress_datum (identPglz 1 5) [9, 9, 9, 9, 9] =
      some ⟨5, [9, 9, 9, 9, 9]⟩ := by
  refine ⟨by decide, by decide⟩

/-- C7 as amended: `pglz_compress_datum` returns `NULL` without consulting
the library — for every library with the given strategy window — exactly
when the input length lies outside the closed window
`[min_input_size, max_input_size]` (max inclusive). -/
theorem C7_amended :
    ∀ (mn mx : Nat) (B : List Nat),
      (∀ lib : PglzLib, lib.min_input_size = mn → lib.max_input_size = mx →
          pglz_compress_datum lib B = none)
      ↔ (B.length < mn ∨ mx < B.length) := by
  intro mn mx B
  constructor
  · intro h
    by_contra hcon
    push_neg at hcon
    have h2 := h (identPglz mn mx) rfl rfl
    simp only [pglz_compress_datum, identPglz] at h2
    rw [if_neg (by omega)] at h2
    exact Option.noConfusion h2
  · intro hw lib h1 h2
    simp only [pglz_compress_datum]
    rw [if_pos (by omega)]

/-- Witness for the amended C7: a 1-byte input is below a window starting
at 3, so compression is refused up front. -/
theorem C7_amended_witness :
    pglz_compress_datum (identPglz 3 5) [1] = none :=
  (C7_amended 3 5 [1]).mpr (by decide) (identPglz 3 5) rfl rfl

end ToastCompression
